import Mathlib

/-!
# Verification of the client-IP resolver in `src/dummy_server.py`

Shallow embedding of the one source file of the repository: the pure
function `_extract_client_ip`, and the two route handlers `get_ip`
(GET /ip) and `root` (GET /).

Python strings are modelled as Lean `String`s; the two Python string
operations the source uses, `str.split(",")` and `str.strip()`, are
modelled character-by-character over `String.toList` so that their
behaviour matches CPython:
  * `"x".split(",")` always returns a non-empty list (`"".split(",") == [""]`);
  * `strip()` removes leading and trailing whitespace characters.
The request is modelled as a structure carrying the header list, the
optional transport peer host, and the (unused) query string and body, so
that "the handlers consume nothing but headers and peer address" is a
statable property.
-/

namespace DummyServer

/-- The ASCII whitespace characters removed by the Python method `str.strip`
(space, tab, newline, carriage return, vertical tab, form feed). -/
def pyIsSpace (c : Char) : Bool :=
  c == ' ' || c == '\t' || c == '\n' || c == '\r' || c == '\x0b' || c == '\x0c'

/-- Character-level model of the CPython method `str.split(sep)` for a one-character
separator: splits at every occurrence of `sep`; the empty input yields
`[[]]`, so the result is never the empty list. -/
def splitChar (sep : Char) : List Char → List (List Char)
  | [] => [[]]
  | c :: rest =>
    let r := splitChar sep rest
    if c = sep then [] :: r
    else (c :: r.headD []) :: r.tail

/-- Model of the source expression `s.split(",")`, as a `String` operation. -/
def pySplitComma (s : String) : List String :=
  (splitChar ',' s.toList).map List.asString

/-- Character-level model of the CPython method `str.strip()`: drop
whitespace from the front, then from the back. -/
def stripChars (l : List Char) : List Char :=
  ((l.dropWhile pyIsSpace).reverse.dropWhile pyIsSpace).reverse

/-- Model of the source expression `s.strip()`, as a `String` operation. -/
def pyStrip (s : String) : String :=
  (stripChars s.toList).asString

/-- Lowercase a string character by character (kernel-reducible model of
`str.lower()` on header names). -/
def lowerName (s : String) : String :=
  (s.toList.map Char.toLower).asString

/-- Case-insensitive header lookup, the narrow capability the resolver
uses from the framework call `request.headers.get(name)`: the first header
whose lowercased name equals the lowercased lookup name, if any.
(ASGI delivers header names lowercased and Starlette lowercases the
lookup key, so the effective semantics is a case-insensitive name match.) -/
def headersGet (hs : List (String × String)) (name : String) : Option String :=
  (hs.find? fun p => lowerName p.1 == lowerName name).map Prod.snd

/-- A header list with every header name lowercased; two header lists
with the same `lowerKeys` image differ only in the casing of names. -/
def lowerKeys (hs : List (String × String)) : List (String × String) :=
  hs.map fun p => (lowerName p.1, p.2)

/-- The inbound request, as the handlers see it: the header list, the
optional transport peer host (`request.client`, `None` when the
transport provides no peer), plus the query string and body which no
handler in the source reads. -/
structure Request where
  headers : List (String × String)
  client : Option String
  queryString : String
  body : String

/-- Model of `_extract_client_ip(request)` from `src/dummy_server.py`:

    forwarded_for = request.headers.get("x-forwarded-for")
    if forwarded_for:
        return forwarded_for.split(",")[0].strip()
    if request.client:
        return request.client.host
    return "unknown"

`if forwarded_for:` is Python truthiness on `Optional[str]`: taken
exactly when the header is present with a non-empty value. `[0]` is
`List.headD` because the split list is provably never empty. -/
def extract_client_ip (request : Request) : String :=
  let forwarded_for := headersGet request.headers "x-forwarded-for"
  match forwarded_for with
  | some v =>
    if v ≠ "" then pyStrip ((pySplitComma v).headD "")
    else
      match request.client with
      | some host => host
      | none => "unknown"
  | none =>
    match request.client with
    | some host => host
    | none => "unknown"

/-- The `GET /ip` handler `get_ip`: the returned JSON object, as an
ordered list of key/value pairs. -/
def get_ip (request : Request) : List (String × String) :=
  [("ip", extract_client_ip request)]

/-- The `GET /` handler `root`. -/
def root (request : Request) : List (String × String) :=
  [("message", "ok"), ("ip", extract_client_ip request)]

/-! ## Helper lemmas -/

/-- `str.split` never returns an empty list, so the index `[0]` in the
source is always in bounds. -/
theorem splitChar_ne_nil (sep : Char) (l : List Char) : splitChar sep l ≠ [] := by
  cases l with
  | nil => simp [splitChar]
  | cons c rest =>
    simp only [splitChar]
    by_cases h : c = sep <;> simp [h]

/-- No character of the first piece of a split is the separator. -/
theorem not_sep_mem_head_splitChar (sep : Char) (l : List Char) :
    ∀ c ∈ (splitChar sep l).headD [], c ≠ sep := by
  induction l with
  | nil => simp [splitChar]
  | cons a rest ih =>
    intro c hc
    simp only [splitChar] at hc
    by_cases h : a = sep
    · simp [h] at hc
    · simp only [if_neg h, List.headD_cons, List.mem_cons] at hc
      rcases hc with rfl | hc
      · exact h
      · exact ih c hc

/-- The head of `dropWhile p l` does not satisfy `p`. -/
theorem head?_dropWhile_not {α : Type} (p : α → Bool) (l : List α) :
    ∀ c, (l.dropWhile p).head? = some c → p c = false := by
  induction l with
  | nil => intro c h; simp [List.dropWhile] at h
  | cons a rest ih =>
    intro c h
    by_cases hp : p a
    · rw [List.dropWhile_cons_of_pos hp] at h
      exact ih c h
    · rw [List.dropWhile_cons_of_neg hp] at h
      simp only [List.head?_cons, Option.some.injEq] at h
      subst h
      exact Bool.eq_false_iff.mpr hp

/-- A non-empty `dropWhile p l` ends where `l` ends. -/
theorem getLast?_dropWhile {α : Type} (p : α → Bool) (l : List α)
    (h : l.dropWhile p ≠ []) : (l.dropWhile p).getLast? = l.getLast? := by
  induction l with
  | nil => simp [List.dropWhile] at h
  | cons a rest ih =>
    by_cases hp : p a
    · rw [List.dropWhile_cons_of_pos hp] at h ⊢
      have hrest : rest ≠ [] := by
        intro hr
        subst hr
        simp [List.dropWhile] at h
      rw [ih h]
      cases rest with
      | nil => exact absurd rfl hrest
      | cons b t => rw [List.getLast?_cons_cons]
    · rw [List.dropWhile_cons_of_neg hp]

/-- Every character of the stripped list comes from the original list. -/
theorem mem_stripChars (l : List Char) (c : Char) (h : c ∈ stripChars l) : c ∈ l := by
  unfold stripChars at h
  rw [List.mem_reverse] at h
  have h1 := List.dropWhile_subset pyIsSpace h
  rw [List.mem_reverse] at h1
  exact List.dropWhile_subset pyIsSpace h1

/-- The first character of a stripped list is not whitespace. -/
theorem stripChars_head (l : List Char) (c : Char)
    (h : (stripChars l).head? = some c) : pyIsSpace c = false := by
  unfold stripChars at h
  rw [List.head?_reverse] at h
  have hne : (l.dropWhile pyIsSpace).reverse.dropWhile pyIsSpace ≠ [] := by
    intro he
    rw [he] at h
    simp at h
  rw [getLast?_dropWhile _ _ hne, List.getLast?_reverse] at h
  exact head?_dropWhile_not pyIsSpace _ c h

/-- The last character of a stripped list is not whitespace. -/
theorem stripChars_getLast (l : List Char) (c : Char)
    (h : (stripChars l).getLast? = some c) : pyIsSpace c = false := by
  unfold stripChars at h
  rw [List.getLast?_reverse] at h
  exact head?_dropWhile_not pyIsSpace _ c h

/-- Header lookup only looks at lowercased names: two header lists that
agree after lowercasing every name give the same lookup results. -/
theorem headersGet_eq_of_lowerKeys (hs hs' : List (String × String))
    (h : lowerKeys hs = lowerKeys hs') (name : String) :
    headersGet hs name = headersGet hs' name := by
  induction hs generalizing hs' with
  | nil =>
    have : hs' = [] := by
      simpa [lowerKeys] using h.symm
    subst this
    rfl
  | cons p t ih =>
    cases hs' with
    | nil => simp [lowerKeys] at h
    | cons q t' =>
      simp only [lowerKeys, List.map_cons, List.cons.injEq, Prod.mk.injEq] at h
      obtain ⟨⟨h1, h2⟩, h3⟩ := h
      simp only [headersGet, List.find?]
      rw [h1]
      cases hq : (lowerName q.1 == lowerName name)
      · exact ih t' h3
      · simp [h2]

/-- The resolver reads nothing of the request but the header list and
the peer address. -/
theorem extract_client_ip_congr (r r' : Request)
    (hh : r.headers = r'.headers) (hc : r.client = r'.client) :
    extract_client_ip r = extract_client_ip r' := by
  unfold extract_client_ip
  rw [hh, hc]

/-- Forwarded-header branch of the resolver: with a present, non-empty
`x-forwarded-for` value `v`, the result is `v.split(",")[0].strip()`. -/
theorem extract_of_xff (r : Request) (v : String)
    (hget : headersGet r.headers "x-forwarded-for" = some v) (hne : v ≠ "") :
    extract_client_ip r = pyStrip ((pySplitComma v).headD "") := by
  unfold extract_client_ip
  rw [hget]
  simp [hne]

/-- Peer branch of the resolver: with no usable forwarded header and a
peer available, the result is the peer host. -/
theorem extract_of_no_xff_client (r : Request) (host : String)
    (hget : headersGet r.headers "x-forwarded-for" = none ∨
            headersGet r.headers "x-forwarded-for" = some "")
    (hc : r.client = some host) :
    extract_client_ip r = host := by
  unfold extract_client_ip
  rcases hget with h | h <;> simp [h, hc]

/-- Sentinel branch of the resolver: with no usable forwarded header and
no peer, the result is the literal string `"unknown"`. -/
theorem extract_of_no_xff_no_client (r : Request)
    (hget : headersGet r.headers "x-forwarded-for" = none ∨
            headersGet r.headers "x-forwarded-for" = some "")
    (hc : r.client = none) :
    extract_client_ip r = "unknown" := by
  unfold extract_client_ip
  rcases hget with h | h <;> simp [h, hc]

/-! ## Claims -/

/-- C1: whenever `x-forwarded-for` is present with a non-empty value,
the resolver returns the first element of the value split on `,`, with
leading and trailing whitespace stripped, with no validation that the
result is a syntactically valid IP address. -/
theorem claim1_xff_first_split_trimmed (r : Request) (v : String)
    (hget : headersGet r.headers "x-forwarded-for" = some v) (hne : v ≠ "") :
    extract_client_ip r = pyStrip ((pySplitComma v).headD "") :=
  extract_of_xff r v hget hne

/-- C1 witness: for the non-IP value `"a, b, c"` the resolver returns
`"a"`. -/
theorem claim1_xff_first_split_trimmed_witness :
    headersGet [("x-forwarded-for", "a, b, c")] "x-forwarded-for" = some "a, b, c" ∧
    extract_client_ip ⟨[("x-forwarded-for", "a, b, c")], some "9.9.9.9", "", ""⟩ =
      pyStrip ((pySplitComma "a, b, c").headD "") ∧
    pyStrip ((pySplitComma "a, b, c").headD "") = "a" :=
  ⟨by decide,
   claim1_xff_first_split_trimmed ⟨[("x-forwarded-for", "a, b, c")], some "9.9.9.9", "", ""⟩
     "a, b, c" (by decide) (by decide),
   by decide⟩

/-- C2: an `x-forwarded-for` header present but equal to the empty
string is treated as absent: the resolver falls through to the peer
address instead of returning `""` from the header branch. -/
theorem claim2_empty_header_treated_absent (r : Request) (host : String)
    (hget : headersGet r.headers "x-forwarded-for" = some "")
    (hc : r.client = some host) :
    extract_client_ip r = host :=
  extract_of_no_xff_client r host (Or.inr hget) hc

/-- C2 witness: header value `""` with peer `"203.0.113.9"` resolves to
`"203.0.113.9"`. -/
theorem claim2_empty_header_treated_absent_witness :
    headersGet [("x-forwarded-for", "")] "x-forwarded-for" = some "" ∧
    extract_client_ip ⟨[("x-forwarded-for", "")], some "203.0.113.9", "", ""⟩ =
      "203.0.113.9" :=
  ⟨by decide,
   claim2_empty_header_treated_absent
     ⟨[("x-forwarded-for", "")], some "203.0.113.9", "", ""⟩ "203.0.113.9"
     (by decide) rfl⟩

/-- C3: with no usable `x-forwarded-for` header (absent or empty) and a
transport peer available, the resolver returns the peer host (no port:
the model carries the host component only, as `request.client.host`
does). -/
theorem claim3_peer_fallback (r : Request) (host : String)
    (hget : headersGet r.headers "x-forwarded-for" = none ∨
            headersGet r.headers "x-forwarded-for" = some "")
    (hc : r.client = some host) :
    extract_client_ip r = host :=
  extract_of_no_xff_client r host hget hc

/-- C3 witness: no header, peer `"198.51.100.2"`. -/
theorem claim3_peer_fallback_witness :
    headersGet ([] : List (String × String)) "x-forwarded-for" = none ∧
    extract_client_ip ⟨[], some "198.51.100.2", "", ""⟩ = "198.51.100.2" :=
  ⟨rfl,
   claim3_peer_fallback ⟨[], some "198.51.100.2", "", ""⟩ "198.51.100.2"
     (Or.inl rfl) rfl⟩

/-- C4: with no usable `x-forwarded-for` header and no peer, the
resolver returns exactly the literal string `"unknown"`; absence of
address information produces this defined value, not an error (the
resolver has return type `String`, with no error outcome). -/
theorem claim4_unknown_sentinel (r : Request)
    (hget : headersGet r.headers "x-forwarded-for" = none ∨
            headersGet r.headers "x-forwarded-for" = some "")
    (hc : r.client = none) :
    extract_client_ip r = "unknown" :=
  extract_of_no_xff_no_client r hget hc

/-- C4 witness: no header and no peer resolves to `"unknown"`. -/
theorem claim4_unknown_sentinel_witness :
    extract_client_ip ⟨[], none, "", ""⟩ = "unknown" :=
  claim4_unknown_sentinel ⟨[], none, "", ""⟩ (Or.inl rfl) rfl

/-- C5: the resolver is total: on every request it produces one of the
three defined results (stripped first split element, peer host, or the
sentinel), and the indexing `[0]` in the header branch is always in
bounds because a split list is never empty. -/
theorem claim5_total (r : Request) :
    (∀ v : String, pySplitComma v ≠ []) ∧
    ((∃ v, headersGet r.headers "x-forwarded-for" = some v ∧ v ≠ "" ∧
        extract_client_ip r = pyStrip ((pySplitComma v).headD "")) ∨
     (∃ host, r.client = some host ∧ extract_client_ip r = host) ∨
     extract_client_ip r = "unknown") := by
  constructor
  · intro v hnil
    exact splitChar_ne_nil ',' v.toList (List.map_eq_nil_iff.mp hnil)
  · cases hv : headersGet r.headers "x-forwarded-for" with
    | none =>
      right
      cases hcl : r.client with
      | some host =>
        exact Or.inl ⟨host, rfl, extract_of_no_xff_client r host (Or.inl hv) hcl⟩
      | none =>
        exact Or.inr (extract_of_no_xff_no_client r (Or.inl hv) hcl)
    | some v =>
      by_cases hne : v = ""
      · subst hne
        right
        cases hcl : r.client with
        | some host =>
          exact Or.inl ⟨host, rfl, extract_of_no_xff_client r host (Or.inr hv) hcl⟩
        | none =>
          exact Or.inr (extract_of_no_xff_no_client r (Or.inr hv) hcl)
      · exact Or.inl ⟨v, rfl, hne, extract_of_xff r v hv hne⟩

/-- C6 counterexample: the claim that the resolver output is always
non-empty is false on the code. For header value `" "` (non-empty, so
the header branch is taken) the first split element strips to the empty
string, which the source returns as is — exactly the behaviour the spec
itself licenses in step 1d of the algorithm. -/
theorem claim6_nonempty_counterexample :
    extract_client_ip ⟨[("x-forwarded-for", " ")], none, "", ""⟩ = "" := by
  decide

/-- C6 amended: the resolver output is non-empty provided every usable
`x-forwarded-for` value strips (first comma-separated element, trimmed)
to a non-empty string and every available peer host is non-empty; the
fallback sentinel guarantees the rest. Unconditionally the invariant
fails (see the counterexample). -/
theorem claim6_nonempty_amended (r : Request)
    (hh : ∀ v, headersGet r.headers "x-forwarded-for" = some v → v ≠ "" →
          pyStrip ((pySplitComma v).headD "") ≠ "")
    (hc : ∀ host, r.client = some host → host ≠ "") :
    extract_client_ip r ≠ "" := by
  cases hv : headersGet r.headers "x-forwarded-for" with
  | none =>
    cases hcl : r.client with
    | some host =>
      rw [extract_of_no_xff_client r host (Or.inl hv) hcl]
      exact hc host hcl
    | none =>
      rw [extract_of_no_xff_no_client r (Or.inl hv) hcl]
      decide
  | some v =>
    by_cases hne : v = ""
    · subst hne
      cases hcl : r.client with
      | some host =>
        rw [extract_of_no_xff_client r host (Or.inr hv) hcl]
        exact hc host hcl
      | none =>
        rw [extract_of_no_xff_no_client r (Or.inr hv) hcl]
        decide
    · rw [extract_of_xff r v hv hne]
      exact hh v hv hne

/-- C6 amended witness: with no forwarded header and peer
`"198.51.100.2"` the output is non-empty. -/
theorem claim6_nonempty_amended_witness :
    extract_client_ip ⟨[], some "198.51.100.2", "", ""⟩ ≠ "" :=
  claim6_nonempty_amended ⟨[], some "198.51.100.2", "", ""⟩
    (fun _ hv => nomatch hv)
    (fun host hc => by
      have h := Option.some.inj hc
      subst h
      decide)

/-- C7: the `/ip` handler returns the object with the single pair
`("ip", resolved)` and the `/` handler the pairs `("message", "ok")`
and `("ip", resolved)`, where `resolved` is exactly the resolver result
on the same request; both handlers read only the header list and the
peer address, never the query string or the body. -/
theorem claim7_endpoints (r r' : Request)
    (hh : r.headers = r'.headers) (hc : r.client = r'.client) :
    get_ip r = [("ip", extract_client_ip r)] ∧
    root r = [("message", "ok"), ("ip", extract_client_ip r)] ∧
    get_ip r = get_ip r' ∧
    root r = root r' := by
  have he := extract_client_ip_congr r r' hh hc
  exact ⟨rfl, rfl, by simp [get_ip, he], by simp [root, he]⟩

/-- C7 witness: two requests identical up to query string and body get
the same responses, of the stated shapes. -/
theorem claim7_endpoints_witness :
    get_ip ⟨[("x-forwarded-for", "1.2.3.4,5.6.7.8")], none, "q=1", "BODY"⟩ =
      [("ip", extract_client_ip ⟨[("x-forwarded-for", "1.2.3.4,5.6.7.8")], none, "q=1", "BODY"⟩)] ∧
    root ⟨[("x-forwarded-for", "1.2.3.4,5.6.7.8")], none, "q=1", "BODY"⟩ =
      [("message", "ok"),
       ("ip", extract_client_ip ⟨[("x-forwarded-for", "1.2.3.4,5.6.7.8")], none, "q=1", "BODY"⟩)] ∧
    get_ip ⟨[("x-forwarded-for", "1.2.3.4,5.6.7.8")], none, "q=1", "BODY"⟩ =
      get_ip ⟨[("x-forwarded-for", "1.2.3.4,5.6.7.8")], none, "", ""⟩ ∧
    root ⟨[("x-forwarded-for", "1.2.3.4,5.6.7.8")], none, "q=1", "BODY"⟩ =
      root ⟨[("x-forwarded-for", "1.2.3.4,5.6.7.8")], none, "", ""⟩ :=
  claim7_endpoints
    ⟨[("x-forwarded-for", "1.2.3.4,5.6.7.8")], none, "q=1", "BODY"⟩
    ⟨[("x-forwarded-for", "1.2.3.4,5.6.7.8")], none, "", ""⟩ rfl rfl

/-- C8: the `x-forwarded-for` lookup is case-insensitive: two requests
whose header lists agree after lowercasing every header name (and agree
on the peer) resolve to the same result, whatever the letter-casing of
the header names. -/
theorem claim8_case_insensitive (r r' : Request)
    (hh : lowerKeys r.headers = lowerKeys r'.headers)
    (hc : r.client = r'.client) :
    extract_client_ip r = extract_client_ip r' := by
  unfold extract_client_ip
  rw [headersGet_eq_of_lowerKeys r.headers r'.headers hh, hc]

/-- C8 witness: the names `X-FORWARDED-FOR` and `x-forwarded-for` give
the same result. -/
theorem claim8_case_insensitive_witness :
    lowerKeys [("X-FORWARDED-FOR", "1.2.3.4, 5.6.7.8")] =
      lowerKeys [("x-forwarded-for", "1.2.3.4, 5.6.7.8")] ∧
    extract_client_ip ⟨[("X-FORWARDED-FOR", "1.2.3.4, 5.6.7.8")], some "9.9.9.9", "", ""⟩ =
      extract_client_ip ⟨[("x-forwarded-for", "1.2.3.4, 5.6.7.8")], some "9.9.9.9", "", ""⟩ :=
  ⟨by decide,
   claim8_case_insensitive
     ⟨[("X-FORWARDED-FOR", "1.2.3.4, 5.6.7.8")], some "9.9.9.9", "", ""⟩
     ⟨[("x-forwarded-for", "1.2.3.4, 5.6.7.8")], some "9.9.9.9", "", ""⟩
     (by decide) rfl⟩

/-- C9: the resolver is deterministic and stateless: it is a pure
function of the header list and the peer address alone, so two
invocations on requests with identical header sets and identical peer
addresses yield identical output strings. -/
theorem claim9_deterministic (r₁ r₂ : Request)
    (hh : r₁.headers = r₂.headers) (hc : r₁.client = r₂.client) :
    extract_client_ip r₁ = extract_client_ip r₂ :=
  extract_client_ip_congr r₁ r₂ hh hc

/-- C9 witness: two invocations on the same headers and peer agree. -/
theorem claim9_deterministic_witness :
    extract_client_ip ⟨[("x-forwarded-for", "1.2.3.4")], some "9.9.9.9", "a", "b"⟩ =
      extract_client_ip ⟨[("x-forwarded-for", "1.2.3.4")], some "9.9.9.9", "c", "d"⟩ :=
  claim9_deterministic
    ⟨[("x-forwarded-for", "1.2.3.4")], some "9.9.9.9", "a", "b"⟩
    ⟨[("x-forwarded-for", "1.2.3.4")], some "9.9.9.9", "c", "d"⟩ rfl rfl

/-- C10: whenever the header branch is taken (present, non-empty
`x-forwarded-for`), the result contains no comma and carries no leading
or trailing whitespace: only the trimmed substring before the first
comma is returned. -/
theorem claim10_no_comma_trimmed (r : Request) (v : String)
    (hget : headersGet r.headers "x-forwarded-for" = some v) (hne : v ≠ "") :
    ',' ∉ (extract_client_ip r).toList ∧
    (∀ c, (extract_client_ip r).toList.head? = some c → pyIsSpace c = false) ∧
    (∀ c, (extract_client_ip r).toList.getLast? = some c → pyIsSpace c = false) := by
  rw [extract_of_xff r v hget hne]
  obtain ⟨h, t, hsplit⟩ := List.exists_cons_of_ne_nil (splitChar_ne_nil ',' v.toList)
  have hhead : (pySplitComma v).headD "" = h.asString := by
    unfold pySplitComma
    rw [hsplit]
    rfl
  have htl : (pyStrip h.asString).toList = stripChars h := rfl
  rw [hhead]
  refine ⟨?_, ?_, ?_⟩
  · intro hmem
    rw [htl] at hmem
    have hm : ',' ∈ (splitChar ',' v.toList).headD [] := by
      rw [hsplit]
      exact mem_stripChars h ',' hmem
    exact not_sep_mem_head_splitChar ',' v.toList ',' hm rfl
  · intro c hc
    rw [htl] at hc
    exact stripChars_head h c hc
  · intro c hc
    rw [htl] at hc
    exact stripChars_getLast h c hc

/-- C10 witness: for `" 1.2.3.4 , 5.6.7.8 "` the result has no comma
and no surrounding whitespace. -/
theorem claim10_no_comma_trimmed_witness :
    ',' ∉ (extract_client_ip ⟨[("x-forwarded-for", " 1.2.3.4 , 5.6.7.8 ")], none, "", ""⟩).toList ∧
    (∀ c,
      (extract_client_ip ⟨[("x-forwarded-for", " 1.2.3.4 , 5.6.7.8 ")], none, "", ""⟩).toList.head? =
        some c → pyIsSpace c = false) ∧
    (∀ c,
      (extract_client_ip ⟨[("x-forwarded-for", " 1.2.3.4 , 5.6.7.8 ")], none, "", ""⟩).toList.getLast? =
        some c → pyIsSpace c = false) :=
  claim10_no_comma_trimmed ⟨[("x-forwarded-for", " 1.2.3.4 , 5.6.7.8 ")], none, "", ""⟩
    " 1.2.3.4 , 5.6.7.8 " (by decide) (by decide)

end DummyServer
